import Mathlib

/-!
Verification of the HOOMD-blue domain-decomposition communication layer.

This file gives a shallow embedding of
* `hoomd/GlobalArray.h` — the unified host/accelerator array container
  (pitch layout, acquire/release discipline, allocate-copy-swap resizing), and
* `hoomd/mpcd/Communicator.cc` — the MPCD particle-migration communicator
  (neighbor-topology enumeration and merging, comm-flag classification,
  re-entrancy guard, wrap-box construction and periodic rewrapping),
and proves the spec-level properties about them.

Machine integers: the C++ code works on `unsigned int`; arithmetic that the
code performs in 32 bits is embedded as `Nat` reduced by `u32` (mod 2^32).
Storage contents are embedded as total functions `Nat → T` ("the bytes behind
the pointer"), with the allocated size tracked separately; freshly allocated
storage holds `default` (the C++ contents are unspecified there).
-/

/-- 32-bit unsigned wrap-around, the arithmetic of C++ `unsigned int`. -/
def u32 (n : Nat) : Nat := n % 4294967296

theorem u32_eq_of_lt {n : Nat} (h : n < 4294967296) : u32 n = n :=
  Nat.mod_eq_of_lt h

/-- `w &&& 15` is `w % 16` — the C++ code writes `width & 15`. -/
theorem and_fifteen_eq_mod (w : Nat) : w &&& 15 = w % 16 := by
  have h := Nat.and_pow_two_sub_one_eq_mod w 4
  norm_num at h
  exact h

/-- State of a `GlobalArray<T>` (GlobalArray.h): managed storage of
`m_array.size()` elements, a 2D pitch and height, and the acquire flag. -/
structure GlobalArray (T : Type) where
  m_size : Nat
  m_data : Nat → T
  m_pitch : Nat
  m_height : Nat
  m_acquired : Bool

namespace GlobalArray

variable {T : Type} [Inhabited T]

/-- The message thrown by the `checkAcquired` macro (file/line omitted). -/
def errAcquired : String := "GlobalArray already acquired - ArrayHandle scoping mistake?"

/-- 1D constructor: `GlobalArray(num_elements, exec_conf)`. -/
def construct1 (num_elements : Nat) : GlobalArray T :=
  { m_size := num_elements
    m_data := fun _ => default
    m_pitch := num_elements
    m_height := 1
    m_acquired := false }

/-- The pitch computation of the 2D constructor and of 2D `resize`:
`m_pitch = (width + (16 - (width & 15)))` in `unsigned int` arithmetic. -/
def pitchFor (width : Nat) : Nat := u32 (width + (16 - (width &&& 15)))

/-- 2D constructor: `GlobalArray(width, height, exec_conf)`;
`num_elements = m_pitch * m_height`. -/
def construct2 (width height : Nat) : GlobalArray T :=
  { m_size := u32 (pitchFor width * height)
    m_data := fun _ => default
    m_pitch := pitchFor width
    m_height := height
    m_acquired := false }

/-- `getNumElements()` returns `m_array.size()`. -/
def getNumElements (a : GlobalArray T) : Nat := a.m_size

/-- `getPitch()` returns `m_pitch`. -/
def getPitch (a : GlobalArray T) : Nat := a.m_pitch

/-- `getHeight()` returns `m_height`. -/
def getHeight (a : GlobalArray T) : Nat := a.m_height

/-- `acquire(location, mode)`: `checkAcquired`, then marks acquired and
returns `get()` (the data pointer, embedded as the contents function). -/
def acquire (a : GlobalArray T) : Except String (GlobalArray T × (Nat → T)) :=
  if a.m_acquired then Except.error errAcquired
  else Except.ok ({ a with m_acquired := true }, a.m_data)

/-- `release()`: clears the acquired flag, no data effect. -/
def release (a : GlobalArray T) : GlobalArray T := { a with m_acquired := false }

/-- Body of 1D `resize(num_elements)` after the `checkAcquired` guard:
allocate `new_array`, copy `min(m_array.size(), num_elements)` elements,
swap, set `m_pitch = m_array.size()`, `m_height = 1`. -/
def resizeCore (a : GlobalArray T) (num_elements : Nat) : GlobalArray T :=
  { m_size := num_elements
    m_data := fun j =>
      if j < (if a.m_size > num_elements then num_elements else a.m_size)
      then a.m_data j else default
    m_pitch := num_elements
    m_height := 1
    m_acquired := a.m_acquired }

/-- 1D `resize(num_elements)`: `checkAcquired(*this)` then the copy-swap body. -/
def resize (a : GlobalArray T) (num_elements : Nat) : Except String (GlobalArray T) :=
  if a.m_acquired then Except.error errAcquired else Except.ok (a.resizeCore num_elements)

/-- `std::copy(src + srcStart, src + srcStart + len, dst + dstStart)` on
function-embedded storage. -/
def writeSeg (dst : Nat → T) (dstStart len : Nat) (src : Nat → T) (srcStart : Nat) :
    Nat → T :=
  fun j => if dstStart ≤ j ∧ j < dstStart + len then src (srcStart + (j - dstStart)) else dst j

/-- Body of 2D `resize(width, height)` after the guard: new pitch, row-wise
copy of `num_copy_rows × num_copy_columns`, swap; index arithmetic
(`i*m_pitch`, `i*pitch`, `pitch*height`) is `unsigned int`. -/
def resize2DCore (a : GlobalArray T) (width height : Nat) : GlobalArray T :=
  { m_size := u32 (pitchFor width * height)
    m_data := (List.range (if a.m_height > height then height else a.m_height)).foldl
      (fun dst i => writeSeg dst (u32 (i * pitchFor width))
        (if a.m_pitch > pitchFor width then pitchFor width else a.m_pitch)
        a.m_data (u32 (i * a.m_pitch)))
      (fun _ => default)
    m_pitch := pitchFor width
    m_height := height
    m_acquired := a.m_acquired }

/-- 2D `resize(width, height)`: `checkAcquired(*this)` then the body. -/
def resize2D (a : GlobalArray T) (width height : Nat) : Except String (GlobalArray T) :=
  if a.m_acquired then Except.error errAcquired else Except.ok (a.resize2DCore width height)

/-- Copy assignment `operator=`: `checkAcquired(rhs)`, `checkAcquired(*this)`,
then copies pitch/height/storage and clears the acquired flag. -/
def assign (a rhs : GlobalArray T) : Except String (GlobalArray T) :=
  if rhs.m_acquired then Except.error errAcquired
  else if a.m_acquired then Except.error errAcquired
  else Except.ok
    { m_size := rhs.m_size
      m_data := rhs.m_data
      m_pitch := rhs.m_pitch
      m_height := rhs.m_height
      m_acquired := false }

/-- `swap(from)`: `checkAcquired(from)`, `checkAcquired(*this)`, then swaps
`m_pitch`, `m_height`, `m_array` (the acquired flags are not swapped). -/
def swap (a b : GlobalArray T) : Except String (GlobalArray T × GlobalArray T) :=
  if b.m_acquired then Except.error errAcquired
  else if a.m_acquired then Except.error errAcquired
  else Except.ok
    ({ a with m_size := b.m_size, m_data := b.m_data
              m_pitch := b.m_pitch, m_height := b.m_height },
     { b with m_size := a.m_size, m_data := a.m_data
              m_pitch := a.m_pitch, m_height := a.m_height })

/-- Logical 2D element access: element `(row, col)` lives at
index `row * m_pitch + col`. -/
def get2D (a : GlobalArray T) (row col : Nat) : T := a.m_data (row * a.m_pitch + col)

end GlobalArray

/-- For widths below the wrap bound, the computed pitch is
`width + (16 - width % 16)`. -/
theorem pitchFor_eq (w : Nat) (h : w + 16 < 4294967296) :
    GlobalArray.pitchFor w = w + (16 - w % 16) := by
  unfold GlobalArray.pitchFor
  rw [and_fifteen_eq_mod]
  exact u32_eq_of_lt (by omega)

/-- The computed pitch strictly exceeds the requested width. -/
theorem lt_pitchFor (w : Nat) (h : w + 16 < 4294967296) : w < GlobalArray.pitchFor w := by
  rw [pitchFor_eq w h]
  omega

/-- C1: the claim says `construct(w,h)` and `resize(w,h)` set the pitch to `w`
rounded up to the next multiple of 16 greater than or equal to `w`, so that a
width already a multiple of 16 keeps pitch = width.  The code computes
`width + (16 - (width & 15))`, which at `width = 16` yields 32, not 16 — it
contradicts the code's own comment ("next multiple of 16 larger or equal to
the given width") at every multiple of 16. -/
theorem C1_pitch_at_multiple_of_16 :
    GlobalArray.pitchFor 16 = 32 ∧
    (GlobalArray.construct2 (T := Nat) 16 2).getPitch = 32 ∧
    ((GlobalArray.construct2 (T := Nat) 16 2).resize2D 16 2).map GlobalArray.getPitch
      = Except.ok 32 := by
  refine ⟨by decide, by decide, rfl⟩

/-- C2: while a `GlobalArray` is acquired, a second `acquire`, a 1D or 2D
`resize`, copy assignment (as either side) and `swap` (as either side) all
throw the scoping-violation error; after `release`, a fresh `acquire`
succeeds and returns the data pointer. -/
theorem C2_acquire_release_contract (T : Type) [Inhabited T] (a b : GlobalArray T)
    (n w h : Nat) (hacq : a.m_acquired = true) :
    a.acquire = Except.error GlobalArray.errAcquired ∧
    a.resize n = Except.error GlobalArray.errAcquired ∧
    a.resize2D w h = Except.error GlobalArray.errAcquired ∧
    a.assign b = Except.error GlobalArray.errAcquired ∧
    b.assign a = Except.error GlobalArray.errAcquired ∧
    a.swap b = Except.error GlobalArray.errAcquired ∧
    b.swap a = Except.error GlobalArray.errAcquired ∧
    a.release.acquire = Except.ok ({ a with m_acquired := true }, a.m_data) := by
  refine ⟨?_, ?_, ?_, ?_, ?_, ?_, ?_, ?_⟩
  · simp [GlobalArray.acquire, hacq]
  · simp [GlobalArray.resize, hacq]
  · simp [GlobalArray.resize2D, hacq]
  · by_cases hb : b.m_acquired <;> simp [GlobalArray.assign, hacq, hb]
  · simp [GlobalArray.assign, hacq]
  · by_cases hb : b.m_acquired <;> simp [GlobalArray.swap, hacq, hb]
  · simp [GlobalArray.swap, hacq]
  · simp [GlobalArray.acquire, GlobalArray.release]

/-- A concrete acquired array used to witness the acquire/release contract. -/
def gaAcquiredEx : GlobalArray Nat :=
  { m_size := 4, m_data := fun _ => 0, m_pitch := 4, m_height := 1, m_acquired := true }

/-- A concrete released array used to witness the acquire/release contract. -/
def gaFreeEx : GlobalArray Nat :=
  { m_size := 8, m_data := fun _ => 1, m_pitch := 8, m_height := 1, m_acquired := false }

/-- Witness for C2 at a concrete acquired array. -/
theorem C2_acquire_release_contract_witness :
    gaAcquiredEx.acquire = Except.error GlobalArray.errAcquired ∧
    gaAcquiredEx.resize 3 = Except.error GlobalArray.errAcquired ∧
    gaAcquiredEx.resize2D 5 2 = Except.error GlobalArray.errAcquired ∧
    gaAcquiredEx.assign gaFreeEx = Except.error GlobalArray.errAcquired ∧
    gaFreeEx.assign gaAcquiredEx = Except.error GlobalArray.errAcquired ∧
    gaAcquiredEx.swap gaFreeEx = Except.error GlobalArray.errAcquired ∧
    gaFreeEx.swap gaAcquiredEx = Except.error GlobalArray.errAcquired ∧
    gaAcquiredEx.release.acquire
      = Except.ok ({ gaAcquiredEx with m_acquired := true }, gaAcquiredEx.m_data) :=
  C2_acquire_release_contract Nat gaAcquiredEx gaFreeEx 3 5 2 rfl

/-- C10: 1D `resize(num_elements)` always leaves the array one-dimensional:
height 1, pitch exactly `num_elements` (no rounding to a multiple of 16), and
`getNumElements() = num_elements` — also when the array was 2D before. -/
theorem C10_resize1D_flattens (T : Type) [Inhabited T] (a : GlobalArray T) (n : Nat)
    (hacq : a.m_acquired = false) :
    a.resize n = Except.ok (a.resizeCore n) ∧
    (a.resizeCore n).getHeight = 1 ∧
    (a.resizeCore n).getPitch = n ∧
    (a.resizeCore n).getNumElements = n := by
  refine ⟨by simp [GlobalArray.resize, hacq], rfl, rfl, rfl⟩

/-- Witness for C10: a 2D-constructed array (width 5, height 3) resized 1D
to 7 elements. -/
theorem C10_resize1D_flattens_witness :
    (GlobalArray.construct2 (T := Nat) 5 3).resize 7
      = Except.ok ((GlobalArray.construct2 (T := Nat) 5 3).resizeCore 7) ∧
    ((GlobalArray.construct2 (T := Nat) 5 3).resizeCore 7).getHeight = 1 ∧
    ((GlobalArray.construct2 (T := Nat) 5 3).resizeCore 7).getPitch = 7 ∧
    ((GlobalArray.construct2 (T := Nat) 5 3).resizeCore 7).getNumElements = 7 :=
  C10_resize1D_flattens Nat (GlobalArray.construct2 5 3) 7 rfl

/-- Evaluating the row-wise copy loop of 2D `resize`: inside the copied
prefix (row `r < rows`, column `c < cols ≤ p2`) the destination holds the
source element at `r * p1 + c`, provided the 32-bit index arithmetic does
not wrap. -/
theorem foldl_writeSeg_get {T : Type} (src d0 : Nat → T) (p1 p2 cols : Nat)
    (hcols : cols ≤ p2) :
    ∀ rows r c : Nat, r < rows → c < cols →
      rows * p2 < 4294967296 → rows * p1 < 4294967296 →
      ((List.range rows).foldl
          (fun dst i => GlobalArray.writeSeg dst (u32 (i * p2)) cols src (u32 (i * p1)))
          d0)
        (r * p2 + c) = src (r * p1 + c) := by
  intro rows
  induction rows with
  | zero => intro r c hr; omega
  | succ k ih =>
    intro r c hr hc h2 h1
    have hk2 : k * p2 < 4294967296 :=
      lt_of_le_of_lt (Nat.mul_le_mul_right _ (Nat.le_succ k)) h2
    have hk1 : k * p1 < 4294967296 :=
      lt_of_le_of_lt (Nat.mul_le_mul_right _ (Nat.le_succ k)) h1
    rw [List.range_succ, List.foldl_append, List.foldl_cons, List.foldl_nil]
    rcases Nat.lt_succ_iff_lt_or_eq.mp hr with hlt | heq
    · -- r < k: the last row's write lands strictly above r * p2 + c
      have hbelow : r * p2 + c < k * p2 := by
        have : (r + 1) * p2 ≤ k * p2 := Nat.mul_le_mul_right _ hlt
        calc r * p2 + c < r * p2 + p2 := by omega
          _ = (r + 1) * p2 := by ring
          _ ≤ k * p2 := this
      rw [GlobalArray.writeSeg, u32_eq_of_lt hk2]
      rw [if_neg (by omega)]
      exact ih r c hlt hc hk2 hk1
    · subst heq
      rw [GlobalArray.writeSeg, u32_eq_of_lt hk2, u32_eq_of_lt hk1]
      rw [if_pos (by omega)]
      congr 1
      omega

/-- C3: 1D resize to `M` greater than the current size preserves every element
of `[0, N)`; 2D resize of an array of logical size `(w1, h1)` to `(w2, h2)`
preserves logical element `(r, c)` for `r < min h1 h2`, `c < min w1 w2`
(within the 32-bit non-wrapping regime of the index arithmetic). -/
theorem C3_resize_keeps_old_elements (T : Type) [Inhabited T] :
    (∀ (a : GlobalArray T) (M i : Nat), a.m_acquired = false →
      a.m_size < M → i < a.m_size →
      a.resize M = Except.ok (a.resizeCore M) ∧
      (a.resizeCore M).m_data i = a.m_data i) ∧
    (∀ (a : GlobalArray T) (w1 w2 h2 r c : Nat), a.m_acquired = false →
      a.m_pitch = GlobalArray.pitchFor w1 →
      w1 + 16 < 4294967296 → w2 + 16 < 4294967296 →
      GlobalArray.pitchFor w1 * a.m_height < 4294967296 →
      GlobalArray.pitchFor w2 * h2 < 4294967296 →
      r < a.m_height → r < h2 → c < w1 → c < w2 →
      a.resize2D w2 h2 = Except.ok (a.resize2DCore w2 h2) ∧
      (a.resize2DCore w2 h2).get2D r c = a.get2D r c) := by
  constructor
  · intro a M i hacq hM hi
    refine ⟨by simp [GlobalArray.resize, hacq], ?_⟩
    have hcopy : ¬ a.m_size > M := by omega
    simp only [GlobalArray.resizeCore, if_neg hcopy]
    rw [if_pos hi]
  · intro a w1 w2 h2 r c hacq hp1 hw1 hw2 hn1 hn2 hr1 hr2 hc1 hc2
    refine ⟨by simp [GlobalArray.resize2D, hacq], ?_⟩
    have hc1p : c < GlobalArray.pitchFor w1 := lt_of_lt_of_le hc1 (le_of_lt (lt_pitchFor w1 hw1))
    have hc2p : c < GlobalArray.pitchFor w2 := lt_of_lt_of_le hc2 (le_of_lt (lt_pitchFor w2 hw2))
    have hrows : (if a.m_height > h2 then h2 else a.m_height) ≤ a.m_height := by
      split <;> omega
    have hrows2 : (if a.m_height > h2 then h2 else a.m_height) ≤ h2 := by
      split <;> omega
    have hrlt : r < (if a.m_height > h2 then h2 else a.m_height) := by
      split <;> omega
    have hclt : c < (if a.m_pitch > GlobalArray.pitchFor w2
        then GlobalArray.pitchFor w2 else a.m_pitch) := by
      rw [hp1]; split <;> omega
    have hcle : (if a.m_pitch > GlobalArray.pitchFor w2
        then GlobalArray.pitchFor w2 else a.m_pitch) ≤ GlobalArray.pitchFor w2 := by
      rw [hp1]; split <;> omega
    have hb2 : (if a.m_height > h2 then h2 else a.m_height) * GlobalArray.pitchFor w2
        < 4294967296 := by
      calc (if a.m_height > h2 then h2 else a.m_height) * GlobalArray.pitchFor w2
          ≤ h2 * GlobalArray.pitchFor w2 := Nat.mul_le_mul_right _ hrows2
        _ = GlobalArray.pitchFor w2 * h2 := Nat.mul_comm _ _
        _ < 4294967296 := hn2
    have hb1 : (if a.m_height > h2 then h2 else a.m_height) * a.m_pitch < 4294967296 := by
      rw [hp1]
      calc (if a.m_height > h2 then h2 else a.m_height) * GlobalArray.pitchFor w1
          ≤ a.m_height * GlobalArray.pitchFor w1 := Nat.mul_le_mul_right _ hrows
        _ = GlobalArray.pitchFor w1 * a.m_height := Nat.mul_comm _ _
        _ < 4294967296 := hn1
    have hmain := foldl_writeSeg_get a.m_data (fun _ => default) a.m_pitch
      (GlobalArray.pitchFor w2)
      (if a.m_pitch > GlobalArray.pitchFor w2 then GlobalArray.pitchFor w2 else a.m_pitch)
      hcle (if a.m_height > h2 then h2 else a.m_height) r c hrlt hclt hb2 hb1
    simpa [GlobalArray.get2D, GlobalArray.resize2DCore] using hmain

/-- Witness for C3: a 4-element 1D array grown to 9 keeps element 2; a 2D
array of logical width 5, height 3 resized to width 20, height 2 keeps
logical element (1, 4). -/
theorem C3_resize_keeps_old_elements_witness :
    (gaFreeEx.m_acquired = false ∧ gaFreeEx.m_size < 9 ∧ 2 < gaFreeEx.m_size ∧
      (gaFreeEx.resize 9 = Except.ok (gaFreeEx.resizeCore 9) ∧
       (gaFreeEx.resizeCore 9).m_data 2 = gaFreeEx.m_data 2)) ∧
    ((GlobalArray.construct2 (T := Nat) 5 3).resize2D 20 2
        = Except.ok ((GlobalArray.construct2 (T := Nat) 5 3).resize2DCore 20 2) ∧
      ((GlobalArray.construct2 (T := Nat) 5 3).resize2DCore 20 2).get2D 1 4
        = (GlobalArray.construct2 (T := Nat) 5 3).get2D 1 4) :=
  ⟨⟨rfl, by decide, by decide,
    (C3_resize_keeps_old_elements Nat).1 gaFreeEx 9 2 rfl (by decide) (by decide)⟩,
   (C3_resize_keeps_old_elements Nat).2 (GlobalArray.construct2 5 3) 5 20 2 1 4 rfl rfl
     (by decide) (by decide) (by decide) (by decide) (by decide) (by decide)
     (by decide) (by decide)⟩

namespace Mpcd

/-- The loop bounds of `initializeNeighborArrays`: each of `ix, iy, iz`
ranges over -1, 0, 1. -/
def offs : List Int := [-1, 0, 1]

/-- Per-axis wrapping of a neighbor coordinate:
`if (i == extent) i = 0; else if (i < 0) i += extent;`. -/
def wrapCoord (x : Int) (ext : Nat) : Int :=
  if x = (ext : Int) then 0 else if x < 0 then x + (ext : Int) else x

/-- `dir = ((iz+1)*3+(iy+1))*3+(ix+1)` for an offset `(ix, iy, iz)`. -/
def dirOf (o : Int × Int × Int) : Nat :=
  (((o.2.2 + 1) * 3 + (o.2.1 + 1)) * 3 + (o.1 + 1)).toNat

/-- `mask = 1 << dir`. -/
def maskOf (o : Int × Int × Int) : Nat := 1 <<< dirOf o

/-- The offsets the triple loop of `initializeNeighborArrays` does not skip:
`continue` on an axis of extent 1 with a nonzero offset there, and
`continue` on the all-zero offset ("exclude ourselves"). -/
def survivors (W H D : Nat) : List (Int × Int × Int) :=
  offs.flatMap fun ix =>
    if ix ≠ 0 ∧ W = 1 then [] else
    offs.flatMap fun iy =>
      if iy ≠ 0 ∧ H = 1 then [] else
      offs.flatMap fun iz =>
        if iz ≠ 0 ∧ D = 1 then [] else
        if ix = 0 ∧ iy = 0 ∧ iz = 0 then [] else
        [(ix, iy, iz)]

/-- `h_cart_ranks.data[di(i,j,k)]` for the wrapped coordinate of an offset;
the grid-indexed rank table is abstracted as `ranks`. -/
def resolveRank (W H D : Nat) (ranks : Int → Int → Int → Nat) (l m n : Int)
    (o : Int × Int × Int) : Nat :=
  ranks (wrapCoord (o.1 + l) W) (wrapCoord (o.2.1 + m) H) (wrapCoord (o.2.2 + n) D)

/-- The `(h_neighbors, h_adj_mask)` pairs written by the enumeration loop,
in loop order: one `(rank, 1 << dir)` pair per surviving offset. -/
def neighPairs (W H D : Nat) (ranks : Int → Int → Int → Nat) (l m n : Int) :
    List (Nat × Nat) :=
  (survivors W H D).map fun o => (resolveRank W H D ranks l m n o, maskOf o)

/-- The inner mask-combining loop:
`for j: if (neighbors[j] == r) m |= adj_mask[j]`. -/
def orMasks (ps : List (Nat × Nat)) (r : Nat) : Nat :=
  ps.foldl (fun acc q => if q.1 = r then acc ||| q.2 else acc) 0

/-- `std::map<unsigned,unsigned>::insert`: keeps keys strictly sorted and
does not overwrite an existing key. -/
def mapInsert (k v : Nat) : List (Nat × Nat) → List (Nat × Nat)
  | [] => [(k, v)]
  | q :: rest =>
    if k < q.1 then (k, v) :: q :: rest
    else if k = q.1 then q :: rest
    else q :: mapInsert k v rest

/-- The merge pass of `initializeNeighborArrays`: for each enumerated
neighbor, insert `(rank, OR of all masks with that rank)` into the map; the
unique-neighbor array is the map read out in key order. -/
def mergeNeighbors (ps : List (Nat × Nat)) : List (Nat × Nat) :=
  ps.foldl (fun acc q => mapInsert q.1 (orMasks ps q.1) acc) []

/-- `m_unique_neighbors` / merged `m_adj_mask` as computed by
`initializeNeighborArrays` for grid shape `(W, H, D)`, grid position
`(l, m, n)` and rank table `ranks`. -/
def uniqueNeighbors (W H D : Nat) (ranks : Int → Int → Int → Nat) (l m n : Int) :
    List (Nat × Nat) :=
  mergeNeighbors (neighPairs W H D ranks l m n)

theorem mapInsert_keys_mem (k v r : Nat) (xs : List (Nat × Nat)) :
    r ∈ (mapInsert k v xs).map Prod.fst ↔ r = k ∨ r ∈ xs.map Prod.fst := by
  induction xs with
  | nil => simp [mapInsert]
  | cons q rest ih =>
    rw [mapInsert]
    by_cases h1 : k < q.1
    · rw [if_pos h1]
      simp only [List.map_cons, List.mem_cons]
    · rw [if_neg h1]
      by_cases h2 : k = q.1
      · rw [if_pos h2]
        subst h2
        simp only [List.map_cons, List.mem_cons]
        tauto
      · rw [if_neg h2]
        simp only [List.map_cons, List.mem_cons, ih]
        tauto

theorem mapInsert_sorted (k v : Nat) (xs : List (Nat × Nat))
    (h : (xs.map Prod.fst).Sorted (· < ·)) :
    ((mapInsert k v xs).map Prod.fst).Sorted (· < ·) := by
  induction xs with
  | nil => simp [mapInsert]
  | cons q rest ih =>
    rw [List.map_cons, List.sorted_cons] at h
    obtain ⟨hall, hrest⟩ := h
    by_cases h1 : k < q.1
    · rw [mapInsert, if_pos h1]
      rw [List.map_cons, List.sorted_cons]
      refine ⟨?_, by rw [List.map_cons, List.sorted_cons]; exact ⟨hall, hrest⟩⟩
      intro b hb
      rw [List.map_cons] at hb
      rcases List.mem_cons.mp hb with hb | hb
      · omega
      · exact lt_trans h1 (hall b hb)
    · by_cases h2 : k = q.1
      · rw [mapInsert, if_neg h1, if_pos h2]
        rw [List.map_cons, List.sorted_cons]
        exact ⟨hall, hrest⟩
      · rw [mapInsert, if_neg h1, if_neg h2]
        rw [List.map_cons, List.sorted_cons]
        refine ⟨?_, ih hrest⟩
        intro b hb
        rcases (mapInsert_keys_mem k v b rest).mp hb with hb | hb
        · omega
        · exact hall b hb

theorem mapInsert_values (P : Nat × Nat → Prop) (k v : Nat) (xs : List (Nat × Nat))
    (hxs : ∀ q ∈ xs, P q) (hkv : P (k, v)) :
    ∀ q ∈ mapInsert k v xs, P q := by
  induction xs with
  | nil => simpa [mapInsert]
  | cons q rest ih =>
    intro q' hq'
    rw [mapInsert] at hq'
    split at hq'
    · rcases List.mem_cons.mp hq' with h | h
      · exact h ▸ hkv
      · exact hxs q' h
    · split at hq'
      · exact hxs q' hq'
      · rcases List.mem_cons.mp hq' with h | h
        · exact hxs q' (h ▸ List.mem_cons_self q rest)
        · exact ih (fun x hx => hxs x (List.mem_cons_of_mem q hx)) q' h

theorem foldl_mapInsert_keys (g : Nat → Nat) (l : List (Nat × Nat)) :
    ∀ (acc : List (Nat × Nat)) (r : Nat),
      r ∈ ((l.foldl (fun acc q => mapInsert q.1 (g q.1) acc) acc).map Prod.fst)
        ↔ r ∈ acc.map Prod.fst ∨ r ∈ l.map Prod.fst := by
  induction l with
  | nil => simp
  | cons q rest ih =>
    intro acc r
    rw [List.foldl_cons, ih, mapInsert_keys_mem]
    simp
    tauto

theorem foldl_mapInsert_sorted (g : Nat → Nat) (l : List (Nat × Nat)) :
    ∀ (acc : List (Nat × Nat)), (acc.map Prod.fst).Sorted (· < ·) →
      ((l.foldl (fun acc q => mapInsert q.1 (g q.1) acc) acc).map Prod.fst).Sorted (· < ·) := by
  induction l with
  | nil => intro acc h; simpa
  | cons q rest ih =>
    intro acc h
    exact ih _ (mapInsert_sorted q.1 (g q.1) acc h)

theorem foldl_mapInsert_values (g : Nat → Nat) (l : List (Nat × Nat)) :
    ∀ (acc : List (Nat × Nat)), (∀ q ∈ acc, q.2 = g q.1) →
      ∀ q ∈ l.foldl (fun acc q => mapInsert q.1 (g q.1) acc) acc, q.2 = g q.1 := by
  induction l with
  | nil => intro acc h; exact h
  | cons q rest ih =>
    intro acc h
    exact ih _ (mapInsert_values _ q.1 (g q.1) acc h rfl)

theorem mergeNeighbors_keys_mem (ps : List (Nat × Nat)) (r : Nat) :
    r ∈ (mergeNeighbors ps).map Prod.fst ↔ r ∈ ps.map Prod.fst := by
  rw [mergeNeighbors, foldl_mapInsert_keys]
  simp

theorem mergeNeighbors_sorted (ps : List (Nat × Nat)) :
    ((mergeNeighbors ps).map Prod.fst).Sorted (· < ·) :=
  foldl_mapInsert_sorted _ ps [] (by simp)

theorem mergeNeighbors_values (ps : List (Nat × Nat)) :
    ∀ q ∈ mergeNeighbors ps, q.2 = orMasks ps q.1 :=
  foldl_mapInsert_values _ ps [] (by simp)

/-- `orMasks` over the pairs built from a list of offsets is the OR of the
mask bits of the offsets resolving to the given rank. -/
theorem orMasks_map {α : Type} (L : List α) (rk mk : α → Nat) (r : Nat) :
    orMasks (L.map fun o => (rk o, mk o)) r
      = L.foldl (fun acc o => if rk o = r then acc ||| mk o else acc) 0 := by
  rw [orMasks, List.foldl_map]

end Mpcd

namespace Mpcd

/-- An offset survives the enumeration loop iff each component is in
-1..1, it is not the all-zero offset, and it is zero on every axis of
extent 1. -/
theorem mem_survivors (W H D : Nat) (dx dy dz : Int) :
    (dx, dy, dz) ∈ survivors W H D ↔
      dx ∈ offs ∧ dy ∈ offs ∧ dz ∈ offs ∧
      ¬(dx = 0 ∧ dy = 0 ∧ dz = 0) ∧
      (W = 1 → dx = 0) ∧ (H = 1 → dy = 0) ∧ (D = 1 → dz = 0) := by
  constructor
  · intro h
    rw [survivors, List.mem_flatMap] at h
    obtain ⟨ix, hix, h⟩ := h
    by_cases c1 : ix ≠ 0 ∧ W = 1
    · rw [if_pos c1] at h
      exact absurd h (List.not_mem_nil _)
    · rw [if_neg c1, List.mem_flatMap] at h
      obtain ⟨iy, hiy, h⟩ := h
      by_cases c2 : iy ≠ 0 ∧ H = 1
      · rw [if_pos c2] at h
        exact absurd h (List.not_mem_nil _)
      · rw [if_neg c2, List.mem_flatMap] at h
        obtain ⟨iz, hiz, h⟩ := h
        by_cases c3 : iz ≠ 0 ∧ D = 1
        · rw [if_pos c3] at h
          exact absurd h (List.not_mem_nil _)
        · rw [if_neg c3] at h
          by_cases c4 : ix = 0 ∧ iy = 0 ∧ iz = 0
          · rw [if_pos c4] at h
            exact absurd h (List.not_mem_nil _)
          · rw [if_neg c4, List.mem_singleton] at h
            rw [Prod.ext_iff, Prod.ext_iff] at h
            obtain ⟨h1, h2, h3⟩ := h
            dsimp only at h1 h2 h3
            subst h1
            subst h2
            subst h3
            exact ⟨hix, hiy, hiz, c4, fun hw => by tauto, fun hh => by tauto,
              fun hd => by tauto⟩
  · rintro ⟨hd1, hd2, hd3, hnz, hw, hh, hdd⟩
    rw [survivors, List.mem_flatMap]
    refine ⟨dx, hd1, ?_⟩
    rw [if_neg (by tauto), List.mem_flatMap]
    refine ⟨dy, hd2, ?_⟩
    rw [if_neg (by tauto), List.mem_flatMap]
    refine ⟨dz, hd3, ?_⟩
    rw [if_neg (by tauto), if_neg hnz]
    exact List.mem_singleton.mpr rfl

/-- The ranks written to `h_neighbors` are the resolved ranks of the
surviving offsets, in loop order. -/
theorem neighPairs_keys (W H D : Nat) (ranks : Int → Int → Int → Nat) (l m n : Int) :
    (neighPairs W H D ranks l m n).map Prod.fst
      = (survivors W H D).map (resolveRank W H D ranks l m n) := by
  simp [neighPairs, List.map_map]

end Mpcd

/-- C4: for every grid shape, position and rank table, the merged neighbor
set of `initializeNeighborArrays` satisfies the NeighborSet invariant:
listed ranks pairwise distinct; offsets on an axis of extent 1 are skipped;
every surviving offset resolves (per-axis modular wrap) to exactly one
listed rank; each listed rank's mask is the OR of `1 << dir` over all
surviving offsets resolving to it. -/
theorem C4_neighbor_set_invariant (W H D : Nat) (ranks : Int → Int → Int → Nat)
    (l m n : Int) :
    ((Mpcd.uniqueNeighbors W H D ranks l m n).map Prod.fst).Pairwise (· ≠ ·) ∧
    (∀ dx dy dz : Int,
      dx ∈ Mpcd.offs → dy ∈ Mpcd.offs → dz ∈ Mpcd.offs →
      ¬(dx = 0 ∧ dy = 0 ∧ dz = 0) →
      (((W = 1 ∧ dx ≠ 0) ∨ (H = 1 ∧ dy ≠ 0) ∨ (D = 1 ∧ dz ≠ 0)) →
        (dx, dy, dz) ∉ Mpcd.survivors W H D) ∧
      (((W = 1 → dx = 0) ∧ (H = 1 → dy = 0) ∧ (D = 1 → dz = 0)) →
        (dx, dy, dz) ∈ Mpcd.survivors W H D ∧
        ((Mpcd.uniqueNeighbors W H D ranks l m n).map Prod.fst).count
          (Mpcd.resolveRank W H D ranks l m n (dx, dy, dz)) = 1)) ∧
    (∀ q ∈ Mpcd.uniqueNeighbors W H D ranks l m n,
      q.2 = (Mpcd.survivors W H D).foldl
        (fun acc o => if Mpcd.resolveRank W H D ranks l m n o = q.1
                      then acc ||| Mpcd.maskOf o else acc) 0) := by
  have hsorted := Mpcd.mergeNeighbors_sorted (Mpcd.neighPairs W H D ranks l m n)
  have hne : ((Mpcd.uniqueNeighbors W H D ranks l m n).map Prod.fst).Pairwise (· ≠ ·) :=
    hsorted.imp (fun h => Nat.ne_of_lt h)
  refine ⟨hne, ?_, ?_⟩
  · intro dx dy dz hx hy hz hnz
    constructor
    · intro hskip hmem
      rw [Mpcd.mem_survivors] at hmem
      tauto
    · intro hkeep
      have hmem : (dx, dy, dz) ∈ Mpcd.survivors W H D :=
        (Mpcd.mem_survivors W H D dx dy dz).mpr
          ⟨hx, hy, hz, hnz, hkeep.1, hkeep.2.1, hkeep.2.2⟩
      refine ⟨hmem, ?_⟩
      have hnodup : ((Mpcd.uniqueNeighbors W H D ranks l m n).map Prod.fst).Nodup := hne
      refine List.count_eq_one_of_mem hnodup ?_
      rw [Mpcd.uniqueNeighbors, Mpcd.mergeNeighbors_keys_mem, Mpcd.neighPairs_keys]
      exact List.mem_map_of_mem _ hmem
  · intro q hq
    have hv := Mpcd.mergeNeighbors_values (Mpcd.neighPairs W H D ranks l m n) q hq
    rw [hv, Mpcd.neighPairs, Mpcd.orMasks_map]

/-- Modelled from the spec: the grid indexer mapping a wrapped grid
coordinate `(i,j,k)` to a rank — the composition of the domain indexer and
`getCartRanks`, both defined outside the sources at hand; the spec only
requires "a grid indexer mapping (i,j,k) → rank". -/
def rankTable (W H : Nat) (i j k : Int) : Nat := (i + W * (j + H * k)).toNat

/-- Witness for C4 at the 2×2×2 grid, position (0,0,0), corner offset
(1,1,1). -/
theorem C4_neighbor_set_invariant_witness :
    ((1 : Int), (1 : Int), (1 : Int)) ∈ Mpcd.survivors 2 2 2 ∧
    ((Mpcd.uniqueNeighbors 2 2 2 (rankTable 2 2) 0 0 0).map Prod.fst).count
      (Mpcd.resolveRank 2 2 2 (rankTable 2 2) 0 0 0 (1, 1, 1)) = 1 :=
  ((C4_neighbor_set_invariant 2 2 2 (rankTable 2 2) 0 0 0).2.1 1 1 1
    (by decide) (by decide) (by decide) (by decide)).2
    (by refine ⟨?_, ?_, ?_⟩ <;> intro h <;> omega)

/-- C5: on a 1×1×1 grid the rank has no neighbors; on a 2×1×1 grid exactly
one, whose merged mask is the OR of the -x and +x direction bits; on a 3×3×3
grid exactly 26 unique neighbors, and every one of the 26 nonzero offsets
resolves to a listed rank. -/
theorem C5_small_grid_topology :
    ((Mpcd.uniqueNeighbors 1 1 1 (rankTable 1 1) 0 0 0).length = 0) ∧
    (∀ l ∈ [(0 : Int), 1],
      (Mpcd.uniqueNeighbors 2 1 1 (rankTable 2 1) l 0 0).length = 1 ∧
      ∀ q ∈ Mpcd.uniqueNeighbors 2 1 1 (rankTable 2 1) l 0 0,
        q.2 = Mpcd.maskOf (-1, 0, 0) ||| Mpcd.maskOf (1, 0, 0)) ∧
    ((Mpcd.survivors 3 3 3).length = 26 ∧
     ∀ l ∈ [(0 : Int), 1, 2], ∀ m ∈ [(0 : Int), 1, 2], ∀ n ∈ [(0 : Int), 1, 2],
       (Mpcd.uniqueNeighbors 3 3 3 (rankTable 3 3) l m n).length = 26 ∧
       ∀ o ∈ Mpcd.survivors 3 3 3,
         Mpcd.resolveRank 3 3 3 (rankTable 3 3) l m n o
           ∈ (Mpcd.uniqueNeighbors 3 3 3 (rankTable 3 3) l m n).map Prod.fst) := by
  decide

/-- Witness for C5 at position 0 of the 2×1×1 grid. -/
theorem C5_small_grid_topology_witness :
    (Mpcd.uniqueNeighbors 2 1 1 (rankTable 2 1) 0 0 0).length = 1 ∧
    ∀ q ∈ Mpcd.uniqueNeighbors 2 1 1 (rankTable 2 1) 0 0 0,
      q.2 = Mpcd.maskOf (-1, 0, 0) ||| Mpcd.maskOf (1, 0, 0) :=
  C5_small_grid_topology.2.1 0 (by decide)

namespace Mpcd

/-- A position / box corner. HOOMD's `Scalar3` holds floating-point
components; `setCommFlags` and the wrap logic only compare and add them,
so they are embedded as rationals with the same ordered comparisons. -/
structure Scalar3 where
  x : ℚ
  y : ℚ
  z : ℚ

/-- Modelled from the spec: `mpcd::detail::send_mask::east` — the +x face
bit (the face enum and its masks live in `mpcd/CommunicatorUtilities.h`,
outside the sources at hand; the spec fixes a 6-bit mask, one bit per
face, matching the per-direction masks `1 << dir` of the migration loop). -/
def maskEast : Nat := 1

/-- Modelled from the spec: `send_mask::west`, the -x face bit. -/
def maskWest : Nat := 2

/-- Modelled from the spec: `send_mask::north`, the +y face bit. -/
def maskNorth : Nat := 4

/-- Modelled from the spec: `send_mask::south`, the -y face bit. -/
def maskSouth : Nat := 8

/-- Modelled from the spec: `send_mask::up`, the +z face bit. -/
def maskUp : Nat := 16

/-- Modelled from the spec: `send_mask::down`, the -z face bit. -/
def maskDown : Nat := 32

/-- The per-particle flag computation of `setCommFlags`: `flags = 0`, then
for each axis `pos ≥ hi → |= positive-face bit, else pos < lo →
|= negative-face bit`. -/
def commFlag (lo hi pos : Scalar3) : Nat :=
  let f1 : Nat :=
    if pos.x ≥ hi.x then 0 ||| maskEast else if pos.x < lo.x then 0 ||| maskWest else 0
  let f2 : Nat :=
    if pos.y ≥ hi.y then f1 ||| maskNorth else if pos.y < lo.y then f1 ||| maskSouth else f1
  if pos.z ≥ hi.z then f2 ||| maskUp else if pos.z < lo.z then f2 ||| maskDown else f2

/-- `setCommFlags(box)`: overwrites the comm flag of every local particle
from its current position against the coverage box `[lo, hi]`. -/
def setCommFlags (lo hi : Scalar3) (positions : List Scalar3) : List Nat :=
  positions.map (commFlag lo hi)

end Mpcd

/-- C6: `setCommFlags` overwrites particle `i`'s flag with a fresh value
computed only from its current position; per axis the positive-face bit is
set iff `pos ≥ hi`, otherwise the negative-face bit iff `pos < lo`; at most
one bit per axis is set and the flag fits in 6 bits. -/
theorem C6_comm_flags (lo hi p : Mpcd.Scalar3) (ps : List Mpcd.Scalar3) (i : Nat) :
    (Mpcd.setCommFlags lo hi ps).length = ps.length ∧
    (Mpcd.setCommFlags lo hi ps)[i]? = (ps[i]?).map (Mpcd.commFlag lo hi) ∧
    (Mpcd.commFlag lo hi p).testBit 0 = decide (p.x ≥ hi.x) ∧
    (Mpcd.commFlag lo hi p).testBit 1 = (!decide (p.x ≥ hi.x) && decide (p.x < lo.x)) ∧
    (Mpcd.commFlag lo hi p).testBit 2 = decide (p.y ≥ hi.y) ∧
    (Mpcd.commFlag lo hi p).testBit 3 = (!decide (p.y ≥ hi.y) && decide (p.y < lo.y)) ∧
    (Mpcd.commFlag lo hi p).testBit 4 = decide (p.z ≥ hi.z) ∧
    (Mpcd.commFlag lo hi p).testBit 5 = (!decide (p.z ≥ hi.z) && decide (p.z < lo.z)) ∧
    ¬((Mpcd.commFlag lo hi p).testBit 0 = true ∧ (Mpcd.commFlag lo hi p).testBit 1 = true) ∧
    ¬((Mpcd.commFlag lo hi p).testBit 2 = true ∧ (Mpcd.commFlag lo hi p).testBit 3 = true) ∧
    ¬((Mpcd.commFlag lo hi p).testBit 4 = true ∧ (Mpcd.commFlag lo hi p).testBit 5 = true) ∧
    Mpcd.commFlag lo hi p < 64 := by
  refine ⟨by simp [Mpcd.setCommFlags], by simp [Mpcd.setCommFlags, List.getElem?_map], ?_⟩
  unfold Mpcd.commFlag Mpcd.maskEast Mpcd.maskWest Mpcd.maskNorth Mpcd.maskSouth
    Mpcd.maskUp Mpcd.maskDown
  split_ifs <;> simp_all [← not_lt] <;> decide

namespace Mpcd

/-- The communicator state relevant to `communicate`: the
`m_is_communicating` guard plus the rest of the system (particle data and
buffers), abstracted as `α`. -/
structure CommunicatorState (α : Type) where
  m_is_communicating : Bool
  pdata : α

/-- `communicate(timestep)`: if `m_is_communicating`, emit a warning and
return; otherwise set the guard, run `migrateParticles` (abstracted as
`migrate`), and clear the guard.  The returned Bool is true iff the
warning path was taken. -/
def communicate {α : Type} (migrate : α → α) (s : CommunicatorState α) :
    CommunicatorState α × Bool :=
  if s.m_is_communicating then (s, true)
  else
    ({ m_is_communicating := false
       pdata := migrate ({ s with m_is_communicating := true } : CommunicatorState α).pdata },
     false)

end Mpcd

/-- C7: a `communicate` call while already communicating only warns — the
state (guard and particle data) is returned unchanged and no migration
runs; a call in the idle state performs the migration exactly once and
returns with the guard cleared. -/
theorem C7_reentrancy_guard (α : Type) (migrate : α → α) (s : Mpcd.CommunicatorState α) :
    (s.m_is_communicating = true → Mpcd.communicate migrate s = (s, true)) ∧
    (s.m_is_communicating = false →
      Mpcd.communicate migrate s
        = ({ m_is_communicating := false, pdata := migrate s.pdata }, false)) := by
  constructor
  · intro h
    simp [Mpcd.communicate, h]
  · intro h
    simp [Mpcd.communicate, h]

/-- Witness for C7: a re-entrant call is a no-op; an idle call migrates. -/
theorem C7_reentrancy_guard_witness :
    Mpcd.communicate Nat.succ ⟨true, 5⟩ = (⟨true, 5⟩, true) ∧
    Mpcd.communicate Nat.succ ⟨false, 5⟩ = (⟨false, 6⟩, false) :=
  ⟨(C7_reentrancy_guard Nat Nat.succ ⟨true, 5⟩).1 rfl,
   (C7_reentrancy_guard Nat Nat.succ ⟨false, 5⟩).2 rfl⟩

namespace Mpcd

/-- One axis of an orthorhombic box: its low and high bounds. -/
structure AxisBounds where
  lo : ℚ
  hi : ℚ

/-- One axis of the shift computed by `getWrapBox`: the signed overflow of
the coverage box past the global box, applied only when more than one rank
lies along the axis. -/
def wrapShift (box gbox : AxisBounds) (gridGt1 : Bool) : ℚ :=
  if gridGt1 then
    (if box.hi > gbox.hi then box.hi - gbox.hi
     else if box.lo < gbox.lo then box.lo - gbox.lo else 0)
  else 0

/-- One axis of the box returned by `getWrapBox`: the global bounds shifted
by the overflow, periodic iff the direction is being communicated. -/
def getWrapBoxAxis (box gbox : AxisBounds) (gridGt1 comm : Bool) : AxisBounds × Bool :=
  (⟨gbox.lo + wrapShift box gbox gridGt1, gbox.hi + wrapShift box gbox gridGt1⟩, comm)

/-- Modelled from the spec: one axis of `BoxDim::wrap` (in `hoomd/BoxDim.h`,
outside the sources at hand) — on a periodic axis a coordinate at or above
the high bound reappears shifted down by the box length, one below the low
bound shifted up by it; non-periodic axes are untouched. -/
def wrapAxis (wb : AxisBounds) (periodic : Bool) (x : ℚ) : ℚ :=
  if periodic then
    (if x ≥ wb.hi then x - (wb.hi - wb.lo)
     else if x < wb.lo then x + (wb.hi - wb.lo) else x)
  else x

/-- The rewrap `migrateParticles` applies to each received coordinate on
one axis: `wrap_box.wrap` with the box from `getWrapBox`. -/
def rewrapAxis (box gbox : AxisBounds) (gridGt1 comm : Bool) (x : ℚ) : ℚ :=
  wrapAxis (getWrapBoxAxis box gbox gridGt1 comm).1 (getWrapBoxAxis box gbox gridGt1 comm).2 x

end Mpcd

/-- C8: on a decomposed, communicated axis whose coverage box protrudes past
the global box on exactly one side, a received particle that crossed the
high global boundary lands at `pos - boxLength` and one that crossed the
low boundary at `pos + boxLength`, both inside the global box; an axis
whose direction is not communicated is left unwrapped. -/
theorem C8_periodic_rewrap (box gbox : Mpcd.AxisBounds) (x : ℚ)
    (hg : gbox.lo < gbox.hi) :
    ((box.lo < gbox.lo → ¬ box.hi > gbox.hi →
      gbox.hi ≤ x → x ≤ gbox.hi + (gbox.hi - gbox.lo) →
      Mpcd.rewrapAxis box gbox true true x = x - (gbox.hi - gbox.lo) ∧
      gbox.lo ≤ x - (gbox.hi - gbox.lo) ∧ x - (gbox.hi - gbox.lo) ≤ gbox.hi)) ∧
    ((box.hi > gbox.hi → ¬ box.lo < gbox.lo →
      x < gbox.lo → gbox.lo - (gbox.hi - gbox.lo) ≤ x →
      Mpcd.rewrapAxis box gbox true true x = x + (gbox.hi - gbox.lo) ∧
      gbox.lo ≤ x + (gbox.hi - gbox.lo) ∧ x + (gbox.hi - gbox.lo) < gbox.hi)) ∧
    (∀ g : Bool, Mpcd.rewrapAxis box gbox g false x = x) := by
  refine ⟨?_, ?_, ?_⟩
  · intro hlo hhi hx hxu
    have hs : Mpcd.wrapShift box gbox true = box.lo - gbox.lo := by
      rw [Mpcd.wrapShift, if_pos rfl, if_neg hhi, if_pos hlo]
    have hshift_neg : box.lo - gbox.lo < 0 := by linarith
    have hcond : x ≥ gbox.hi + Mpcd.wrapShift box gbox true := by
      rw [hs]; linarith
    refine ⟨?_, by linarith, by linarith⟩
    rw [Mpcd.rewrapAxis, Mpcd.getWrapBoxAxis, Mpcd.wrapAxis, if_pos rfl, if_pos hcond]
    ring
  · intro hhi hlo hx hxl
    have hs : Mpcd.wrapShift box gbox true = box.hi - gbox.hi := by
      rw [Mpcd.wrapShift, if_pos rfl, if_pos hhi]
    have hshift_pos : 0 < box.hi - gbox.hi := by linarith
    have hcond1 : ¬ x ≥ gbox.hi + Mpcd.wrapShift box gbox true := by
      rw [hs]; push_neg; linarith
    have hcond2 : x < gbox.lo + Mpcd.wrapShift box gbox true := by
      rw [hs]; linarith
    refine ⟨?_, by linarith, by linarith⟩
    rw [Mpcd.rewrapAxis, Mpcd.getWrapBoxAxis, Mpcd.wrapAxis, if_pos rfl,
      if_neg hcond1, if_pos hcond2]
    ring
  · intro g
    rw [Mpcd.rewrapAxis, Mpcd.getWrapBoxAxis, Mpcd.wrapAxis]
    simp

/-- Witness for C8: global box [0, 10]; a low-protruding coverage box
[-1, 5] receives x = 10.01 and wraps it to 0.01; a high-protruding coverage
box [5, 11] receives x = -0.01 and wraps it to 9.99; a non-communicated
axis leaves x = 10.01 unchanged. -/
theorem C8_periodic_rewrap_witness :
    (Mpcd.rewrapAxis ⟨-1, 5⟩ ⟨0, 10⟩ true true (1001/100) = 1001/100 - 10 ∧
      (0 : ℚ) ≤ 1001/100 - 10 ∧ (1001/100 : ℚ) - 10 ≤ 10) ∧
    (Mpcd.rewrapAxis ⟨5, 11⟩ ⟨0, 10⟩ true true (-1/100) = -1/100 + 10 ∧
      (0 : ℚ) ≤ -1/100 + 10 ∧ (-1/100 : ℚ) + 10 < 10) ∧
    Mpcd.rewrapAxis ⟨-1, 5⟩ ⟨0, 10⟩ true false (1001/100) = 1001/100 := by
  have h := C8_periodic_rewrap ⟨-1, 5⟩ ⟨0, 10⟩ (1001/100) (by norm_num)
  have h2 := C8_periodic_rewrap ⟨5, 11⟩ ⟨0, 10⟩ (-1/100) (by norm_num)
  refine ⟨?_, ?_, h.2.2 false⟩
  · have := h.1 (by norm_num) (by norm_num) (by norm_num) (by norm_num)
    convert this using 2 <;> norm_num
  · have := h2.2.1 (by norm_num) (by norm_num) (by norm_num) (by norm_num)
    convert this using 2 <;> norm_num

namespace Cpp

/-- The size/capacity state of a `std::vector` (the element values are
irrelevant to the bounds question modelled here). -/
structure CppVector where
  sz : Nat
  cap : Nat

/-- A default-constructed vector — the state of the members `m_reqs` and
`m_stats` before the first `migrateParticles` call. -/
def CppVector.empty : CppVector := ⟨0, 0⟩

/-- `reserve(n)`: raises the capacity to at least `n`; never changes
`size()` and constructs no elements. -/
def CppVector.reserve (v : CppVector) (n : Nat) : CppVector := ⟨v.sz, max v.cap n⟩

/-- `v[i]`, and a contiguous range of `k` elements from `data()`, are
within bounds iff below `size()`. -/
def CppVector.inBounds (v : CppVector) (i : Nat) : Bool := i < v.sz

end Cpp

/-- C9: the claim says that after `m_reqs.reserve(2)` / `m_stats.reserve(2)`
the element accesses `m_reqs[0]`, `m_reqs[1]` and the two-element
`MPI_Waitall` ranges are in bounds, i.e. the vectors hold at least two
elements.  `reserve` only raises capacity: on the default-constructed
vectors the size stays 0, so both accesses are out of bounds. -/
theorem C9_reserve_does_not_size :
    (Cpp.CppVector.empty.reserve 2).sz = 0 ∧
    (Cpp.CppVector.empty.reserve 2).cap = 2 ∧
    (Cpp.CppVector.empty.reserve 2).inBounds 0 = false ∧
    (Cpp.CppVector.empty.reserve 2).inBounds 1 = false := by
  decide
